import Mathlib

/-!
# Verification of the Banshie DCA / technical-analysis core

A shallow embedding, over `ℚ`, of the indicator engine and signal synthesizer
(`convex/schema.ts`), the DCA scheduler actions (`executeScheduledStrategies`,
`processValueAveraging`, `weekendBoost` and their helpers), and the position
ledger (`mutations/trading.ts` `updatePosition`).

Modelling conventions:
* JS numbers are modelled as `ℚ`.  Non-finite float values (NaN, ±Infinity),
  which arise only from zero denominators in the Stochastic/Williams
  computations, are modelled by `none` in the `JSNum := Option ℚ` type; all
  other divisions in the translated code are guarded by the code itself or
  occur with non-zero denominators in every case a theorem touches.
* `Math.sqrt` has no exact rational counterpart, so the definitions needing it
  (`Bollinger bands`, `volatility score`) take the square-root map as an
  explicit parameter `msqrt : ℚ → ℚ`.  No theorem below depends on its values.
* JS truthiness tests (`if (x)`, `x || d`) on numeric values treat both `null`
  (here `none`) and `0` as false; this is modelled explicitly (`truthy`,
  `jsOr`).
* Database reads (current price, 24h change, position market value) are passed
  in as explicit parameters, since Convex queries are read-only.
-/

/-- A JS float that may be non-finite: `none` models NaN / ±Infinity
produced by a zero denominator. -/
abbrev JSNum := Option ℚ

/-- JS `arr.slice(-n)` for `n ≥ 1`: the trailing `n` elements. -/
def sliceLast (l : List ℚ) (n : ℕ) : List ℚ := l.drop (l.length - n)

/-- JS `arr.slice(-1)[0]`: the last element (`0` stands for the unreachable
`undefined` of an empty array). -/
def lastD (l : List ℚ) : ℚ := l.getLast?.getD 0

/-- JS `Math.max(...arr)` on a non-empty array (`0` stands for the unreachable
empty case). -/
def maxList (l : List ℚ) : ℚ :=
  match l with
  | [] => 0
  | h :: t => t.foldl max h

/-- JS `Math.min(...arr)` on a non-empty array. -/
def minList (l : List ℚ) : ℚ :=
  match l with
  | [] => 0
  | h :: t => t.foldl min h

/-- JS truthiness of a `number | null` value: `null` and `0` are falsy. -/
def truthy (x : Option ℚ) : Bool :=
  match x with
  | some v => v ≠ 0
  | none => false

/-- JS `x || d` for a `number | null` value `x`: yields `d` when `x` is
`null` or `0`. -/
def jsOr (x : Option ℚ) (d : ℚ) : ℚ :=
  match x with
  | some v => if v = 0 then d else v
  | none => d

/-- JS `(num / den) * scale` where a zero denominator yields a non-finite
float (`none`). -/
def jsRatioScaled (num den scale : ℚ) : JSNum :=
  if den = 0 then none else some (num / den * scale)

/-- Sum of possibly non-finite values: any NaN poisons the sum. -/
def jsSum (l : List JSNum) : JSNum :=
  l.foldl (fun acc x =>
    match acc, x with
    | some a, some b => some (a + b)
    | _, _ => none) (some 0)

/-- `slice(-n)` on a list of possibly non-finite values. -/
def sliceLastJS (l : List JSNum) (n : ℕ) : List JSNum := l.drop (l.length - n)

/-! ## Indicator engine (`convex/schema.ts`) -/

/-- `calculateSMA`: arithmetic mean of the trailing `period` values, null when
fewer than `period` values are available. -/
def calculateSMA (prices : List ℚ) (period : ℕ) : Option ℚ :=
  if prices.length < period then none
  else some ((sliceLast prices period).sum / period)

/-- `calculateEMA`: seeded with the first value, smoothing factor
`2 / (period + 1)`, folded over the whole series. -/
def calculateEMA (prices : List ℚ) (period : ℕ) : Option ℚ :=
  if prices.length < period then none
  else
    match prices with
    | [] => none
    | p0 :: rest =>
      let m : ℚ := 2 / (period + 1)
      some (rest.foldl (fun ema p => p * m + ema * (1 - m)) p0)

structure MACDResult where
  macd : ℚ
  signal : ℚ
  histogram : ℚ
deriving DecidableEq

/-- `calculateMACD`: EMA12 − EMA26; the signal line is the EMA9 of the MACD
line recomputed on every prefix `prices.slice(0, i)` for `i = 26 .. length`;
the JS guard `if (!ema12 || !ema26) return null` is a truthiness test. -/
def calculateMACD (prices : List ℚ) : Option MACDResult :=
  let ema12 := calculateEMA prices 12
  let ema26 := calculateEMA prices 26
  if truthy ema12 && truthy ema26 then
    let macdLine := ema12.getD 0 - ema26.getD 0
    let macdHistory := (List.range' 26 (prices.length - 25)).filterMap (fun i =>
      let s := prices.take i
      let a := calculateEMA s 12
      let b := calculateEMA s 26
      if truthy a && truthy b then some (a.getD 0 - b.getD 0) else none)
    let signalLine := jsOr (calculateEMA macdHistory 9) 0
    some { macd := macdLine, signal := signalLine, histogram := macdLine - signalLine }
  else none

/-- The consecutive differences `prices[i] - prices[i-1]`. -/
def diffs (prices : List ℚ) : List ℚ :=
  (prices.zip (prices.drop 1)).map (fun ab => ab.2 - ab.1)

/-- The per-step gains of `calculateRSI`. -/
def gainsOf (prices : List ℚ) : List ℚ :=
  (diffs prices).map (fun c => if c > 0 then c else 0)

/-- The per-step losses of `calculateRSI`. -/
def lossesOf (prices : List ℚ) : List ℚ :=
  (diffs prices).map (fun c => if c < 0 then |c| else 0)

/-- The simple trailing average gain used by `calculateRSI`. -/
def avgGainOf (prices : List ℚ) (period : ℕ) : ℚ :=
  (sliceLast (gainsOf prices) period).sum / period

/-- The simple trailing average loss used by `calculateRSI`. -/
def avgLossOf (prices : List ℚ) (period : ℕ) : ℚ :=
  (sliceLast (lossesOf prices) period).sum / period

/-- `calculateRSI`: `100 - 100 / (1 + avgGain / avgLoss)` over simple trailing
averages; null when fewer than `period + 1` prices; `100` when the average
loss is zero. -/
def calculateRSI (prices : List ℚ) (period : ℕ) : Option ℚ :=
  if prices.length < period + 1 then none
  else
    let avgGain := avgGainOf prices period
    let avgLoss := avgLossOf prices period
    if avgLoss = 0 then some 100
    else some (100 - 100 / (1 + avgGain / avgLoss))

structure StochasticResult where
  k : JSNum
  d : JSNum
deriving DecidableEq

/-- `calculateStochastic`: `%K = (close − lowestLow) / (highestHigh − lowestLow) · 100`
over the trailing window, `%D` the 3-period mean of the `%K` history.  A flat
window (zero denominator) yields a non-finite value (`none`), exactly as the
unguarded JS division does. -/
def calculateStochastic (highs lows closes : List ℚ) (period : ℕ) :
    Option StochasticResult :=
  if highs.length < period then none
  else
    let highestHigh := maxList (sliceLast highs period)
    let lowestLow := minList (sliceLast lows period)
    let currentClose := lastD closes
    let k := jsRatioScaled (currentClose - lowestLow) (highestHigh - lowestLow) 100
    let kValues := (List.range' (period - 1) (highs.length - (period - 1))).map (fun i =>
      let periodHigh := maxList ((highs.drop (i + 1 - period)).take period)
      let periodLow := minList ((lows.drop (i + 1 - period)).take period)
      jsRatioScaled (closes.getD i 0 - periodLow) (periodHigh - periodLow) 100)
    let d := (jsSum (sliceLastJS kValues 3)).map (fun s => s / 3)
    some { k := k, d := d }

/-- `calculateWilliamsR`: `(highestHigh − close) / (highestHigh − lowestLow) · (−100)`;
a flat window yields a non-finite value (`none`). -/
def calculateWilliamsR (highs lows closes : List ℚ) (period : ℕ) : Option JSNum :=
  if highs.length < period then none
  else
    let highestHigh := maxList (sliceLast highs period)
    let lowestLow := minList (sliceLast lows period)
    let currentClose := lastD closes
    some (jsRatioScaled (highestHigh - currentClose) (highestHigh - lowestLow) (-100))

structure BollingerBands where
  upper : ℚ
  middle : ℚ
  lower : ℚ
  bandwidth : ℚ
deriving DecidableEq

/-- `calculateBollingerBands`: SMA ± stdDev · √(population variance); the JS
guard `if (!sma) return null` is a truthiness test, so the bandwidth division
by `sma` is never by zero. -/
def calculateBollingerBands (msqrt : ℚ → ℚ) (prices : List ℚ) (period : ℕ)
    (stdDev : ℚ) : Option BollingerBands :=
  if prices.length < period then none
  else
    let sma := calculateSMA prices period
    if truthy sma then
      let m := sma.getD 0
      let variance := ((sliceLast prices period).map (fun p => (p - m) ^ 2)).sum / (period : ℚ)
      let sd := msqrt variance
      some { upper := m + sd * stdDev
             middle := m
             lower := m - sd * stdDev
             bandwidth := ((m + sd * stdDev) - (m - sd * stdDev)) / m }
    else none

/-- `calculateATR`: SMA of the true ranges
`max(high − low, |high − prevClose|, |low − prevClose|)`. -/
def calculateATR (highs lows closes : List ℚ) (period : ℕ) : Option ℚ :=
  if highs.length < period + 1 then none
  else
    let trueRanges := (List.range' 1 (highs.length - 1)).map (fun i =>
      max (highs.getD i 0 - lows.getD i 0)
        (max |highs.getD i 0 - closes.getD (i - 1) 0|
          |lows.getD i 0 - closes.getD (i - 1) 0|))
    calculateSMA trueRanges period

/-- `calculateOBV`: running cumulative volume, increasing on up-closes,
decreasing on down-closes, unchanged on flat closes. -/
def calculateOBV (prices volumes : List ℚ) : ℚ :=
  (List.range' 1 (prices.length - 1)).foldl (fun obv i =>
    if prices.getD i 0 > prices.getD (i - 1) 0 then obv + volumes.getD i 0
    else if prices.getD i 0 < prices.getD (i - 1) 0 then obv - volumes.getD i 0
    else obv) 0

structure PivotPoints where
  pivot : ℚ
  resistance1 : ℚ
  resistance2 : ℚ
  resistance3 : ℚ
  support1 : ℚ
  support2 : ℚ
  support3 : ℚ
deriving DecidableEq

/-- `calculatePivotPoints` from the most recent high/low/close. -/
def calculatePivotPoints (high low close : ℚ) : PivotPoints :=
  let pivot := (high + low + close) / 3
  { pivot := pivot
    resistance1 := 2 * pivot - low
    resistance2 := pivot + (high - low)
    resistance3 := high + 2 * (pivot - low)
    support1 := 2 * pivot - high
    support2 := pivot - (high - low)
    support3 := low - 2 * (high - pivot) }

/-- `calculateTrendStrength`: four fixed 25-point conditions. -/
def calculateTrendStrength (prices : List ℚ) : ℚ :=
  if prices.length < 20 then 0
  else
    let sma20 := (calculateSMA prices 20).getD 0
    let sma50 := (calculateSMA prices 50).getD 0
    let currentPrice := lastD prices
    let s1 : ℚ := if currentPrice > sma20 then 25 else 0
    let s2 : ℚ := if currentPrice > sma50 then 25 else 0
    let s3 : ℚ := if sma20 > sma50 then 25 else 0
    let recentSlope := (lastD prices - (sliceLast prices 10).headD 0) / 10
    let s4 : ℚ := if recentSlope > 0 then 25 else 0
    s1 + s2 + s3 + s4

/-- `calculateVolatilityScore`: annualized stddev of returns, scaled to
`[0, 100]`.  Division by a zero previous price is not modelled (no claim
touches it); `√252` enters through the `msqrt` parameter. -/
def calculateVolatilityScore (msqrt : ℚ → ℚ) (prices : List ℚ) : ℚ :=
  if prices.length < 20 then 0
  else
    let returns := (prices.zip (prices.drop 1)).map (fun ab => (ab.2 - ab.1) / ab.1)
    let mean := returns.sum / returns.length
    let variance := (returns.map (fun r => (r - mean) ^ 2)).sum / (returns.length : ℚ)
    let volatility := msqrt variance * msqrt 252
    min 100 (volatility * 100)

/-- `calculateMomentumScore`: blends RSI (with a JS `|| 50` default) with a
clamped recent price change. -/
def calculateMomentumScore (prices : List ℚ) : ℚ :=
  if prices.length < 10 then 50
  else
    let rsi := jsOr (calculateRSI prices 14) 50
    let tenth := (sliceLast prices 10).headD 0
    let priceChange := (lastD prices - tenth) / tenth * 100
    let momentumScore := (rsi + max (-50) (min 50 (priceChange * 2)) + 50) / 2
    max 0 (min 100 momentumScore)

/-! ## Signal synthesizer (`generateTradingSignals` in `convex/schema.ts`) -/

inductive Overall where
  | bullish
  | bearish
  | neutral
deriving DecidableEq

structure SignalVote where
  type : String
  signal : String
  strength : String
deriving DecidableEq

structure VoteDelta where
  bull : ℚ
  bear : ℚ
  entries : List SignalVote
deriving DecidableEq

structure TradingSignals where
  overall : Overall
  strength : ℚ
  signals : List SignalVote
deriving DecidableEq

/-- The RSI block: JS `if (rsi)` is a truthiness test, so an RSI of exactly
`0` casts no vote. -/
def rsiVote (rsi : Option ℚ) : VoteDelta :=
  match rsi with
  | some r =>
    if r = 0 then ⟨0, 0, []⟩
    else if r < 30 then ⟨2, 0, [⟨"RSI", "oversold", "strong"⟩]⟩
    else if r > 70 then ⟨0, 2, [⟨"RSI", "overbought", "strong"⟩]⟩
    else ⟨0, 0, []⟩
  | none => ⟨0, 0, []⟩

/-- The MACD block (an object is always truthy, so only `null` is skipped). -/
def macdVote (macd : Option MACDResult) : VoteDelta :=
  match macd with
  | some m =>
    if m.macd > m.signal ∧ m.histogram > 0 then ⟨1, 0, [⟨"MACD", "bullish_crossover", "medium"⟩]⟩
    else if m.macd < m.signal ∧ m.histogram < 0 then ⟨0, 1, [⟨"MACD", "bearish_crossover", "medium"⟩]⟩
    else ⟨0, 0, []⟩
  | none => ⟨0, 0, []⟩

/-- The moving-average block: JS `if (sma20 && sma50)` is a truthiness test,
so a moving average of exactly `0` also skips the block. -/
def maVote (sma20 sma50 : Option ℚ) (currentPrice : ℚ) : VoteDelta :=
  match sma20, sma50 with
  | some a, some b =>
    if a ≠ 0 ∧ b ≠ 0 then
      if currentPrice > a ∧ a > b then ⟨1, 0, [⟨"MA", "uptrend", "medium"⟩]⟩
      else if currentPrice < a ∧ a < b then ⟨0, 1, [⟨"MA", "downtrend", "medium"⟩]⟩
      else ⟨0, 0, []⟩
    else ⟨0, 0, []⟩
  | _, _ => ⟨0, 0, []⟩

/-- The Bollinger-band block. -/
def bbVote (bb : Option BollingerBands) (currentPrice : ℚ) : VoteDelta :=
  match bb with
  | some v =>
    if currentPrice < v.lower then ⟨1, 0, [⟨"BB", "oversold", "medium"⟩]⟩
    else if currentPrice > v.upper then ⟨0, 1, [⟨"BB", "overbought", "medium"⟩]⟩
    else ⟨0, 0, []⟩
  | none => ⟨0, 0, []⟩

/-- `generateTradingSignals`: the four vote blocks run in sequence, then
`netSignal = bullish − bearish` classifies the overall signal.  `highs`,
`lows` and `volumes` are received but unused, as in the source. -/
def generateTradingSignals (msqrt : ℚ → ℚ) (prices highs lows volumes : List ℚ) :
    TradingSignals :=
  let rsi := calculateRSI prices 14
  let macd := calculateMACD prices
  let bb := calculateBollingerBands msqrt prices 20 2
  let sma20 := calculateSMA prices 20
  let sma50 := calculateSMA prices 50
  let currentPrice := lastD prices
  let v1 := rsiVote rsi
  let v2 := macdVote macd
  let v3 := maVote sma20 sma50 currentPrice
  let v4 := bbVote bb currentPrice
  let bullishSignals := v1.bull + v2.bull + v3.bull + v4.bull
  let bearishSignals := v1.bear + v2.bear + v3.bear + v4.bear
  let entries := v1.entries ++ v2.entries ++ v3.entries ++ v4.entries
  let netSignal := bullishSignals - bearishSignals
  if netSignal > 1 then ⟨.bullish, min 100 (netSignal * 20), entries⟩
  else if netSignal < -1 then ⟨.bearish, min 100 (|netSignal| * 20), entries⟩
  else ⟨.neutral, 0, entries⟩

/-! ### The signal-synthesis rule as the specification words it (claim C4)

Directions `buy`/`sell`/`hold` correspond to the code's
`bullish`/`bearish`/`neutral`. -/

inductive Direction where
  | buy
  | sell
  | hold
deriving DecidableEq

def Direction.toOverall : Direction → Overall
  | .buy => .bullish
  | .sell => .bearish
  | .hold => .neutral

/-- Claim C4 as stated: an RSI extreme contributes 2 whenever RSI is
present. -/
def specRsiVotes (rsi : Option ℚ) : ℚ × ℚ :=
  match rsi with
  | some r => if r < 30 then (2, 0) else if r > 70 then (0, 2) else (0, 0)
  | none => (0, 0)

/-- Claim C4: a MACD crossover contributes 1. -/
def specMacdVotes (macd : Option MACDResult) : ℚ × ℚ :=
  match macd with
  | some m =>
    if m.macd > m.signal then (1, 0)
    else if m.macd < m.signal then (0, 1)
    else (0, 0)
  | none => (0, 0)

/-- Claim C4 as stated: moving-average trend alignment contributes 1 whenever
both averages are present. -/
def specMaVotes (sma20 sma50 : Option ℚ) (price : ℚ) : ℚ × ℚ :=
  match sma20, sma50 with
  | some a, some b =>
    if price > a ∧ a > b then (1, 0)
    else if price < a ∧ a < b then (0, 1)
    else (0, 0)
  | _, _ => (0, 0)

/-- Claim C4: a Bollinger-band touch contributes 1. -/
def specBbVotes (bb : Option BollingerBands) (price : ℚ) : ℚ × ℚ :=
  match bb with
  | some v =>
    if price < v.lower then (1, 0)
    else if price > v.upper then (0, 1)
    else (0, 0)
  | none => (0, 0)

/-- Net vote of claim C4 as stated, for the indicator snapshot the code
computes from `prices`. -/
def specNet (msqrt : ℚ → ℚ) (prices : List ℚ) : ℚ :=
  let price := lastD prices
  let v1 := specRsiVotes (calculateRSI prices 14)
  let v2 := specMacdVotes (calculateMACD prices)
  let v3 := specMaVotes (calculateSMA prices 20) (calculateSMA prices 50) price
  let v4 := specBbVotes (calculateBollingerBands msqrt prices 20 2) price
  (v1.1 + v2.1 + v3.1 + v4.1) - (v1.2 + v2.2 + v3.2 + v4.2)

/-- Claim C4's classification of a net vote. -/
def specDirection (net : ℚ) : Direction :=
  if net > 1 then .buy else if net < -1 then .sell else .hold

/-- Claim C4's strength of a net vote. -/
def specStrength (net : ℚ) : ℚ :=
  if net > 1 then min 100 (net * 20)
  else if net < -1 then min 100 (|net| * 20)
  else 0

/-- Amended RSI votes: the truthiness gate also silences an RSI of exactly
`0`. -/
def specRsiVotesAmended (rsi : Option ℚ) : ℚ × ℚ :=
  match rsi with
  | some r =>
    if r = 0 then (0, 0)
    else if r < 30 then (2, 0) else if r > 70 then (0, 2) else (0, 0)
  | none => (0, 0)

/-- Amended moving-average votes: the truthiness gate also silences an average
of exactly `0`. -/
def specMaVotesAmended (sma20 sma50 : Option ℚ) (price : ℚ) : ℚ × ℚ :=
  match sma20, sma50 with
  | some a, some b =>
    if a ≠ 0 ∧ b ≠ 0 then
      if price > a ∧ a > b then (1, 0)
      else if price < a ∧ a < b then (0, 1)
      else (0, 0)
    else (0, 0)
  | _, _ => (0, 0)

/-- Net vote of the amended claim C4. -/
def specNetAmended (msqrt : ℚ → ℚ) (prices : List ℚ) : ℚ :=
  let price := lastD prices
  let v1 := specRsiVotesAmended (calculateRSI prices 14)
  let v2 := specMacdVotes (calculateMACD prices)
  let v3 := specMaVotesAmended (calculateSMA prices 20) (calculateSMA prices 50) price
  let v4 := specBbVotes (calculateBollingerBands msqrt prices 20 2) price
  (v1.1 + v2.1 + v3.1 + v4.1) - (v1.2 + v2.2 + v3.2 + v4.2)

/-! ## Indicator aggregate and entry point (`convex/schema.ts`) -/

structure Candle where
  close : ℚ
  high : ℚ
  low : ℚ
  volume : ℚ
deriving DecidableEq

structure SMASet where
  sma20 : Option ℚ
  sma50 : Option ℚ
  sma200 : Option ℚ
deriving DecidableEq

structure EMASet where
  ema12 : Option ℚ
  ema26 : Option ℚ
  ema50 : Option ℚ
deriving DecidableEq

structure Indicators where
  sma : SMASet
  ema : EMASet
  macd : Option MACDResult
  rsi : Option ℚ
  stochastic : Option StochasticResult
  williams : Option JSNum
  bollingerBands : Option BollingerBands
  atr : Option ℚ
  volumeSMA : Option ℚ
  obv : ℚ
  pivotPoints : PivotPoints
  trendStrength : ℚ
  volatilityScore : ℚ
  momentumScore : ℚ
  signals : TradingSignals

/-- `calculateAllIndicators`: the price history arrives newest-first and is
reversed to oldest-first before computing every indicator. -/
def calculateAllIndicators (msqrt : ℚ → ℚ) (priceData : List Candle) : Indicators :=
  let prices := (priceData.map (·.close)).reverse
  let volumes := (priceData.map (·.volume)).reverse
  let highs := (priceData.map (·.high)).reverse
  let lows := (priceData.map (·.low)).reverse
  { sma := { sma20 := calculateSMA prices 20
             sma50 := calculateSMA prices 50
             sma200 := calculateSMA prices 200 }
    ema := { ema12 := calculateEMA prices 12
             ema26 := calculateEMA prices 26
             ema50 := calculateEMA prices 50 }
    macd := calculateMACD prices
    rsi := calculateRSI prices 14
    stochastic := calculateStochastic highs lows prices 14
    williams := calculateWilliamsR highs lows prices 14
    bollingerBands := calculateBollingerBands msqrt prices 20 2
    atr := calculateATR highs lows prices 14
    volumeSMA := calculateSMA volumes 20
    obv := calculateOBV prices volumes
    pivotPoints := calculatePivotPoints (lastD highs) (lastD lows) (lastD prices)
    trendStrength := calculateTrendStrength prices
    volatilityScore := calculateVolatilityScore msqrt prices
    momentumScore := calculateMomentumScore prices
    signals := generateTradingSignals msqrt prices highs lows volumes }

/-- `calculateTokenIndicators`: the entry point throws
"Insufficient price data for technical analysis" when fewer than 20 candles
are available, and otherwise computes and stores the full indicator set. -/
def calculateTokenIndicators (msqrt : ℚ → ℚ) (priceData : List Candle) :
    Except String Indicators :=
  if priceData.length < 20 then
    Except.error "Insufficient price data for technical analysis"
  else
    Except.ok (calculateAllIndicators msqrt priceData)

/-- A fixed instantiation of the square-root parameter for concrete
evaluations; no result below depends on its values. -/
def anySqrt : ℚ → ℚ := fun _ => 0

/-! ## Strategy scheduler (`executeScheduledStrategies` and helpers)

Strategy records follow the `dcaStrategies` schema; token mints/symbols are
omitted because the price queries they key are modelled by a `PriceEnv`
parameter.  `weekendBoost` (read by the weekend-boost action) and
`volatilityAdjustment` (read by `adjustForMarketConditions`) are absent from
the schema's `advanced`/`conditions` validators, so schema-valid documents
leave them `undefined` (falsy); they are modelled as explicit `Bool` fields. -/

structure Conditions where
  minPrice : Option ℚ
  maxPrice : Option ℚ
  onlyBuyDips : Bool
  dipThreshold : Option ℚ
  volatilityAdjustment : Bool
deriving DecidableEq

structure Limits where
  maxInvestment : Option ℚ
  maxExecutions : Option ℕ
  endDate : Option ℕ
deriving DecidableEq

structure Advanced where
  valueAveraging : Bool
  weekendBoost : Bool
deriving DecidableEq

structure Frequency where
  type : String
  value : String
deriving DecidableEq

structure StrategyConfig where
  amount : ℚ
  frequency : Frequency
  conditions : Option Conditions
  limits : Limits
  advanced : Advanced
deriving DecidableEq

structure StrategyStats where
  totalExecutions : ℕ
  totalInvested : ℚ
  nextExecution : Option ℕ
deriving DecidableEq

structure Strategy where
  config : StrategyConfig
  stats : StrategyStats
deriving DecidableEq

/-- The read-only environment of a due check: the latest price and 24h change
of the strategy's output token, and the current time. -/
structure PriceEnv where
  currentPrice : ℚ
  priceChange24h : ℚ
  now : ℕ
deriving DecidableEq

/-- `parseFloat(currentPrice) < parseFloat(conditions.minPrice)` (checked
only when `minPrice` is a non-empty string). -/
def minPriceViolated (env : PriceEnv) (c : Conditions) : Bool :=
  match c.minPrice with
  | some m => decide (env.currentPrice < m)
  | none => false

/-- `parseFloat(currentPrice) > parseFloat(conditions.maxPrice)`. -/
def maxPriceViolated (env : PriceEnv) (c : Conditions) : Bool :=
  match c.maxPrice with
  | some m => decide (env.currentPrice > m)
  | none => false

/-- Dip-only condition fails: `onlyBuyDips` is set and the 24h change is
above the threshold (default −5, via JS `||`). -/
def dipFails (env : PriceEnv) (c : Conditions) : Bool :=
  c.onlyBuyDips && decide (env.priceChange24h > jsOr c.dipThreshold (-5))

/-- `totalExecutions >= maxExecutions` (a `maxExecutions` of `0` is falsy and
skips the check). -/
def maxExecutionsReached (s : Strategy) : Bool :=
  match s.config.limits.maxExecutions with
  | some m => decide (m ≠ 0 ∧ m ≤ s.stats.totalExecutions)
  | none => false

/-- `totalInvested >= maxInvestment`. -/
def maxInvestmentReached (s : Strategy) : Bool :=
  match s.config.limits.maxInvestment with
  | some m => decide (m ≤ s.stats.totalInvested)
  | none => false

/-- `Date.now() > endDate` (an `endDate` of `0` is falsy and skips the
check). -/
def endDatePassed (env : PriceEnv) (s : Strategy) : Bool :=
  match s.config.limits.endDate with
  | some e => decide (e ≠ 0 ∧ e < env.now)
  | none => false

/-- The dip and limit checks of `checkStrategyConditions`, in source order:
buy-the-dip, then `maxExecutions`, `maxInvestment`, `endDate`, each an early
`return false`. -/
def checkDipAndLimits (env : PriceEnv) (s : Strategy) (c : Conditions) : Bool :=
  if dipFails env c then false
  else if maxExecutionsReached s then false
  else if maxInvestmentReached s then false
  else if endDatePassed env s then false
  else true

/-- `checkStrategyConditions`: trivially true without a conditions block;
otherwise price bounds first (the outer `if (minPrice || maxPrice)` only
gates the price query), then dips, then limits. -/
def checkStrategyConditions (env : PriceEnv) (s : Strategy) : Bool :=
  match s.config.conditions with
  | none => true
  | some c =>
    if c.minPrice.isSome || c.maxPrice.isSome then
      if minPriceViolated env c then false
      else if maxPriceViolated env c then false
      else checkDipAndLimits env s c
    else checkDipAndLimits env s c

/-- Price bounds violated (claim C5's step 1). -/
def priceOutOfBounds (env : PriceEnv) (c : Conditions) : Bool :=
  minPriceViolated env c || maxPriceViolated env c

/-- A strategy limit is exceeded (claim C5's step 3). -/
def limitsFail (env : PriceEnv) (s : Strategy) : Bool :=
  maxExecutionsReached s || maxInvestmentReached s || endDatePassed env s

/-- JS `parseInt` on a character list: value of the leading digit run, `none`
(NaN) when there is none. -/
def parseIntJS (cs : List Char) : Option ℕ :=
  let ds := cs.takeWhile Char.isDigit
  if ds = [] then none
  else some (ds.foldl (fun n c => n * 10 + (c.toNat - 48)) 0)

/-- `parseInterval`: unit suffix (`interval.slice(-1)`) plus integer prefix
(`parseInt(interval.slice(0, -1))`); `none` models the NaN produced by
`parseInt` on a malformed prefix; an unknown unit falls back to one hour
regardless of the prefix. -/
def parseInterval (interval : String) : Option ℕ :=
  let unit := (interval.data.getLast?).getD ' '
  let value := parseIntJS interval.data.dropLast
  if unit = 'm' then value.map (· * (60 * 1000))
  else if unit = 'h' then value.map (· * (60 * 60 * 1000))
  else if unit = 'd' then value.map (· * (24 * 60 * 60 * 1000))
  else if unit = 'w' then value.map (· * (7 * 24 * 60 * 60 * 1000))
  else some (60 * 60 * 1000)

/-- `calculateNextExecution`: interval added to the current time; the cron and
dynamic branches are fixed one/two-hour stubs in the source. -/
def calculateNextExecution (frequency : Frequency) (currentTime : ℕ) : Option ℕ :=
  if frequency.type = "interval" then (parseInterval frequency.value).map (currentTime + ·)
  else if frequency.type = "cron" then some (currentTime + 60 * 60 * 1000)
  else if frequency.type = "dynamic" then some (currentTime + 2 * 60 * 60 * 1000)
  else some (currentTime + 60 * 60 * 1000)

/-- Modelled from the spec: `mutations/dca.recordExecution` is not under
`src/`; per §4.4 it appends the execution record and updates the strategy's
runtime totals. -/
def recordExecutionStats (s : Strategy) (amount : ℚ) : Strategy :=
  { s with stats := { s.stats with
      totalExecutions := s.stats.totalExecutions + 1
      totalInvested := s.stats.totalInvested + amount } }

/-- Modelled from the spec: `mutations/dca.updateNextExecution` is not under
`src/`; it stores the timestamp computed by the caller into
`stats.nextExecution`. -/
def updateNextExecutionStats (s : Strategy) (t : Option ℕ) : Strategy :=
  { s with stats := { s.stats with nextExecution := t } }

inductive ExecOutcome where
  | executed
  | skipped
deriving DecidableEq

/-- One iteration of the loop in `executeScheduledStrategies`: a failed
condition check skips the strategy and performs no mutation; a passing check
places the trade, records the execution and advances `nextExecution` to
`calculateNextExecution frequency now`. -/
def processDueStrategy (env : PriceEnv) (s : Strategy) : ExecOutcome × Strategy :=
  if !checkStrategyConditions env s then (.skipped, s)
  else
    let s1 := recordExecutionStats s s.config.amount
    let s2 := updateNextExecutionStats s1 (calculateNextExecution s.config.frequency env.now)
    (.executed, s2)

/-! ## Value averaging (`processValueAveraging` and helpers) -/

/-- `calculateTargetValue`: linear value averaging,
`base amount × (executions so far + 1)`. -/
def calculateTargetValue (s : Strategy) : ℚ :=
  s.config.amount * (s.stats.totalExecutions + 1)

/-- `adjustForMarketConditions`: reduces the amount by 20% under the
(schema-absent, hence normally falsy) `volatilityAdjustment` flag. -/
def adjustForMarketConditions (amount : ℚ) (conditions : Option Conditions) : ℚ :=
  match conditions with
  | some c => if c.volatilityAdjustment then amount * (8 / 10) else amount
  | none => amount

/-- One iteration of the loop in `processValueAveraging`: `currentValue` is
the position market value read from the portfolio (0 without a position);
a non-positive investment amount skips the cycle (`none`), otherwise the
market-adjusted amount is traded. -/
def processValueAveragingStep (s : Strategy) (currentValue : ℚ) : Option ℚ :=
  let targetValue := calculateTargetValue s
  let investmentAmount := targetValue - currentValue
  if investmentAmount ≤ 0 then none
  else some (adjustForMarketConditions investmentAmount s.config.conditions)

/-! ## Weekend boost (`weekendBoost`) -/

/-- One iteration of the loop in `weekendBoost`: strategies not opted in via
`config.advanced.weekendBoost` are skipped; opted-in strategies trade 1.5×
the configured amount.  No condition is consulted and no strategy field is
written. -/
def weekendBoostStep (s : Strategy) : Option ℚ :=
  if s.config.advanced.weekendBoost then some (s.config.amount * (3 / 2)) else none

/-- The whole weekend-boost pass: at most 50 strategies are visited, a trade
is emitted per opted-in strategy, and the strategy records themselves are
returned untouched (the action only calls `placeTrade`). -/
def weekendBoostPass (strategies : List Strategy) : List Strategy × List ℚ :=
  (strategies, (strategies.take 50).filterMap weekendBoostStep)

/-! ## Position ledger (`updatePosition` in `mutations/trading.ts`)

Only the cost-basis fields are carried; `currentPrice`, `marketValue`,
`costBasis` and `pnl` are derived from them and the fill price at each write
and are not read back by any claim. -/

structure Position where
  amount : ℚ
  averagePrice : ℚ
deriving DecidableEq

/-- The `add` branch of `updatePosition`: a first buy opens the position at
the fill price; a later buy takes the quantity-weighted average of the old
average price and the fill price. -/
def applyBuy (pos : Option Position) (q p : ℚ) : Position :=
  match pos with
  | none => { amount := q, averagePrice := p }
  | some ps =>
    let updatedAmount := ps.amount + q
    { amount := updatedAmount
      averagePrice := (ps.amount * ps.averagePrice + q * p) / updatedAmount }

/-- A sequence of buy fills applied to an initially empty position. -/
def applyBuys (buys : List (ℚ × ℚ)) : Option Position :=
  buys.foldl (fun acc qp => some (applyBuy acc qp.1 qp.2)) none

/-- Total quantity bought. -/
def totalQty (buys : List (ℚ × ℚ)) : ℚ := (buys.map Prod.fst).sum

/-- Total cost of the buys. -/
def totalCost (buys : List (ℚ × ℚ)) : ℚ := (buys.map (fun qp => qp.1 * qp.2)).sum

/-! ## Execution records (claim C7)

Modelled from the spec: `mutations/dca.recordExecution` is not under `src/`
(only the `executions` schema and its caller are); per §3/§4.4 the
`(strategyId, scheduledTime)` uniqueness invariant on `ExecutionRecord`
rejects a duplicate recording, leaving the record set unchanged. -/

structure ExecutionRecord where
  strategyId : ℕ
  scheduledTime : ℕ
  amountIn : ℚ
deriving DecidableEq

/-- The deduplication key. -/
def execKey (e : ExecutionRecord) : ℕ × ℕ := (e.strategyId, e.scheduledTime)

/-- Modelled from the spec: recording an execution whose
`(strategyId, scheduledTime)` key is already present is rejected. -/
def recordExecutionLog (log : List ExecutionRecord) (r : ExecutionRecord) :
    List ExecutionRecord :=
  if ∃ e ∈ log, execKey e = execKey r then log else r :: log

/-- The record set reached from an empty log by a sequence of recordings. -/
def applyExecutions (ops : List ExecutionRecord) : List ExecutionRecord :=
  ops.foldl recordExecutionLog []

/-! ## Concrete fixtures -/

/-- A dip-only conditions block with `dipThresholdPct = −5`. -/
def condsDip : Conditions :=
  { minPrice := none, maxPrice := none, onlyBuyDips := true,
    dipThreshold := some (-5), volatilityAdjustment := false }

/-- A daily dip-only strategy, due since t=1000, investing 50 per execution. -/
def stratDip : Strategy :=
  { config := { amount := 50
                frequency := { type := "interval", value := "1d" }
                conditions := some condsDip
                limits := { maxInvestment := none, maxExecutions := none, endDate := none }
                advanced := { valueAveraging := false, weekendBoost := false } }
    stats := { totalExecutions := 0, totalInvested := 0, nextExecution := some 1000 } }

/-- A strategy opted into the weekend boost. -/
def stratBoost : Strategy :=
  { stratDip with config := { stratDip.config with
      advanced := { valueAveraging := false, weekendBoost := true } } }

/-- Environment with a −3% 24h change at t=2000. -/
def envSkip : PriceEnv := { currentPrice := 1, priceChange24h := -3, now := 2000 }

/-- Environment with a −8% 24h change at t=2000. -/
def envExec : PriceEnv := { currentPrice := 1, priceChange24h := -8, now := 2000 }

/-- At a −3% 24h change, the dip-only check fails the due check. -/
theorem check_envSkip : checkStrategyConditions envSkip stratDip = false := by
  norm_num [checkStrategyConditions, stratDip, condsDip, envSkip, checkDipAndLimits,
    dipFails, maxExecutionsReached, maxInvestmentReached, endDatePassed, jsOr]

/-- At a −8% 24h change, the due check passes. -/
theorem check_envExec : checkStrategyConditions envExec stratDip = true := by
  norm_num [checkStrategyConditions, stratDip, condsDip, envExec, checkDipAndLimits,
    dipFails, maxExecutionsReached, maxInvestmentReached, endDatePassed, jsOr]

/-- The next normal daily slot from t=2000. -/
theorem nextExec_eval :
    calculateNextExecution stratDip.config.frequency envSkip.now = some 86402000 := rfl

/-- The loop body leaves the failed-conditions strategy untouched. -/
theorem processDue_skip_eval :
    processDueStrategy envSkip stratDip = (.skipped, stratDip) := by
  simp [processDueStrategy, check_envSkip]

/-! ## C1 — skipped due checks and `nextExecutionAt` -/

/-- C1 counterexample: for the due dip-only strategy whose conditions fail
(24h change −3% > −5%), the loop body skips but leaves
`stats.nextExecution` at its old value 1000 — it does **not** advance it to
the next normal slot `now + 1 day = 86402000` — so the strategy is still due
(`1000 ≤ now`) and is re-checked on the very next tick. -/
theorem C1_counterexample :
    processDueStrategy envSkip stratDip = (.skipped, stratDip) ∧
    stratDip.stats.nextExecution = some 1000 ∧
    calculateNextExecution stratDip.config.frequency envSkip.now = some 86402000 ∧
    (processDueStrategy envSkip stratDip).2.stats.nextExecution ≠
      calculateNextExecution stratDip.config.frequency envSkip.now ∧
    (1000 : ℕ) ≤ envSkip.now := by
  refine ⟨processDue_skip_eval, rfl, nextExec_eval, ?_, by norm_num [envSkip]⟩
  rw [processDue_skip_eval, nextExec_eval]
  decide

/-- C1 (amended): when a due strategy's conditions fail, the scheduler skips
the execution and performs no mutation at all, so `nextExecutionAt` is left
unchanged and the strategy is re-checked on the next tick. -/
theorem C1_skip_leaves_schedule (env : PriceEnv) (s : Strategy)
    (h : checkStrategyConditions env s = false) :
    processDueStrategy env s = (.skipped, s) := by
  simp [processDueStrategy, h]

theorem C1_skip_leaves_schedule_witness :
    processDueStrategy envSkip stratDip = (.skipped, stratDip) :=
  C1_skip_leaves_schedule envSkip stratDip check_envSkip

/-! ## C5 — condition evaluation order and the dip scenario -/

/-- The dip/limit if-chain equals the conjunction of its checks. -/
theorem checkDipAndLimits_eq (env : PriceEnv) (s : Strategy) (c : Conditions) :
    checkDipAndLimits env s c = (!dipFails env c && !limitsFail env s) := by
  unfold checkDipAndLimits limitsFail
  cases hd : dipFails env c <;> cases h1 : maxExecutionsReached s <;>
    cases h2 : maxInvestmentReached s <;> cases h3 : endDatePassed env s <;> simp

/-- Two early-return price checks ahead of the rest equal a conjunction. -/
theorem priceChainEq (a b r : Bool) :
    (if a then false else if b then false else r) = (!(a || b) && r) := by
  cases a <;> cases b <;> cases r <;> rfl

/-- C5: with a conditions block present, a due check passes exactly when the
price bounds hold, the dip-only condition holds and no limit is exceeded
(an out-of-bounds price skips regardless of the rest, a failed dip check
skips regardless of limits); and in the concrete dip-only scenario with
`dipThresholdPct = −5`, a 24h change of −3% skips while −8% executes. -/
theorem C5_condition_order :
    (∀ (env : PriceEnv) (s : Strategy) (c : Conditions),
      s.config.conditions = some c →
        checkStrategyConditions env s =
          (!priceOutOfBounds env c && (!dipFails env c && !limitsFail env s))) ∧
    checkStrategyConditions envSkip stratDip = false ∧
    checkStrategyConditions envExec stratDip = true := by
  refine ⟨fun env s c h => ?_, check_envSkip, check_envExec⟩
  simp only [checkStrategyConditions, h, checkDipAndLimits_eq]
  unfold priceOutOfBounds
  cases hmn : c.minPrice <;> cases hmx : c.maxPrice
  · simp [hmn, hmx, minPriceViolated, maxPriceViolated]
  · simp only [hmn, hmx, Option.isSome_none, Option.isSome_some, Bool.false_or,
      if_true]
    exact priceChainEq _ _ _
  · simp only [hmn, hmx, Option.isSome_none, Option.isSome_some, Bool.or_false,
      if_true]
    exact priceChainEq _ _ _
  · simp only [hmn, hmx, Option.isSome_some, Bool.or_self, if_true]
    exact priceChainEq _ _ _

theorem C5_condition_order_witness :
    checkStrategyConditions envSkip stratDip =
      (!priceOutOfBounds envSkip condsDip &&
        (!dipFails envSkip condsDip && !limitsFail envSkip stratDip)) :=
  C5_condition_order.1 envSkip stratDip condsDip rfl

/-! ## C6 — value averaging -/

/-- A positive amount stays positive under the market-condition adjustment. -/
theorem adjustForMarketConditions_pos (amount : ℚ) (c : Option Conditions)
    (h : 0 < amount) : 0 < adjustForMarketConditions amount c := by
  unfold adjustForMarketConditions
  match c with
  | none => exact h
  | some cc =>
    by_cases hv : cc.volatilityAdjustment
    · simp only [hv, if_true]
      linarith
    · simp only [hv, if_false]
      exact h

/-- C6: the value-averaging target is `perExecutionAmount × (executionsSoFar + 1)`,
the cycle is skipped exactly when `target − currentPositionMarketValue ≤ 0`,
and every amount actually traded is strictly positive. -/
theorem C6_value_averaging (s : Strategy) (v : ℚ) :
    calculateTargetValue s = s.config.amount * (s.stats.totalExecutions + 1) ∧
    (processValueAveragingStep s v = none ↔ calculateTargetValue s - v ≤ 0) ∧
    (∀ a, processValueAveragingStep s v = some a → 0 < a) := by
  refine ⟨rfl, ?_, ?_⟩
  · by_cases h : calculateTargetValue s - v ≤ 0 <;>
      simp [processValueAveragingStep, h]
  · intro a ha
    simp only [processValueAveragingStep] at ha
    split at ha
    · exact absurd ha (by simp)
    · rename_i hpos
      cases ha
      exact adjustForMarketConditions_pos _ _ (by linarith [not_le.mp hpos])

theorem C6_value_averaging_witness :
    calculateTargetValue stratDip =
      stratDip.config.amount * (stratDip.stats.totalExecutions + 1) ∧
    processValueAveragingStep stratDip 100 = none :=
  ⟨(C6_value_averaging stratDip 100).1,
   (C6_value_averaging stratDip 100).2.1.mpr
     (by norm_num [calculateTargetValue, stratDip])⟩

/-! ## C7 — uniqueness of execution records -/

/-- One recording preserves distinctness of `(strategyId, scheduledTime)`
keys. -/
theorem recordExecutionLog_nodup (log : List ExecutionRecord) (r : ExecutionRecord)
    (h : (log.map execKey).Nodup) :
    ((recordExecutionLog log r).map execKey).Nodup := by
  unfold recordExecutionLog
  split
  · exact h
  · rename_i hn
    simp only [List.map_cons, List.nodup_cons]
    refine ⟨fun hmem => ?_, h⟩
    rcases List.mem_map.mp hmem with ⟨e, he, hk⟩
    exact hn ⟨e, he, hk⟩

/-- Any fold of recordings preserves distinctness of keys. -/
theorem foldl_recordExecutionLog_nodup (ops : List ExecutionRecord)
    (log : List ExecutionRecord) (h : (log.map execKey).Nodup) :
    (((ops.foldl recordExecutionLog log)).map execKey).Nodup := by
  induction ops generalizing log with
  | nil => exact h
  | cons r rest ih => exact ih _ (recordExecutionLog_nodup log r h)

/-- C7: every reachable execution-record set has pairwise distinct
`(strategyId, scheduledTime)` keys, and recording a pair that already has a
record leaves the record set unchanged. -/
theorem C7_exec_uniqueness :
    (∀ ops : List ExecutionRecord, ((applyExecutions ops).map execKey).Nodup) ∧
    (∀ (log : List ExecutionRecord) (r : ExecutionRecord),
      (∃ e ∈ log, execKey e = execKey r) → recordExecutionLog log r = log) := by
  constructor
  · intro ops
    exact foldl_recordExecutionLog_nodup ops [] (by simp)
  · intro log r h
    unfold recordExecutionLog
    exact if_pos h

theorem C7_exec_uniqueness_witness :
    recordExecutionLog [⟨1, 5, 50⟩] ⟨1, 5, 50⟩ = [⟨1, 5, 50⟩] :=
  C7_exec_uniqueness.2 [⟨1, 5, 50⟩] ⟨1, 5, 50⟩ ⟨⟨1, 5, 50⟩, by simp, rfl⟩

/-! ## C10 — the weekend-boost pass -/

/-- C10: in the weekend-boost pass, the opt-in flag is the only gate — the
step never reads the strategy's conditions — an opted-in strategy among the
first 50 trades exactly 1.5× its configured amount, a non-opted-in strategy
trades nothing, and the pass leaves every strategy record (hence
`totalExecutions`, `totalInvested`, `nextExecutionAt`) unchanged. -/
theorem C10_weekend_boost (strategies : List Strategy) (s : Strategy)
    (c : Option Conditions) :
    (weekendBoostPass strategies).1 = strategies ∧
    weekendBoostStep { s with config := { s.config with conditions := c } } =
      weekendBoostStep s ∧
    (s.config.advanced.weekendBoost = true →
      weekendBoostStep s = some (s.config.amount * (3 / 2))) ∧
    (s.config.advanced.weekendBoost = false → weekendBoostStep s = none) ∧
    (s ∈ strategies.take 50 → s.config.advanced.weekendBoost = true →
      (s.config.amount * (3 / 2)) ∈ (weekendBoostPass strategies).2) := by
  refine ⟨rfl, rfl, fun h => by simp [weekendBoostStep, h],
    fun h => by simp [weekendBoostStep, h], fun hmem hopt => ?_⟩
  exact List.mem_filterMap.mpr ⟨s, hmem, by simp [weekendBoostStep, hopt]⟩

theorem C10_weekend_boost_witness :
    (weekendBoostPass [stratBoost]).1 = [stratBoost] ∧
    (stratBoost.config.amount * (3 / 2)) ∈ (weekendBoostPass [stratBoost]).2 :=
  ⟨(C10_weekend_boost [stratBoost] stratBoost none).1,
   (C10_weekend_boost [stratBoost] stratBoost none).2.2.2.2 (by simp) rfl⟩

/-! ## C3 — weighted-average cost of a buy sequence -/

/-- Folding further buys over an open position accumulates quantities and
costs. -/
theorem applyBuys_from :
    ∀ (buys : List (ℚ × ℚ)) (pos : Position), 0 < pos.amount →
      (∀ qp ∈ buys, 0 < qp.1) →
      buys.foldl (fun acc qp => some (applyBuy acc qp.1 qp.2)) (some pos) =
        some { amount := pos.amount + totalQty buys
               averagePrice := (pos.amount * pos.averagePrice + totalCost buys) /
                 (pos.amount + totalQty buys) } := by
  intro buys
  induction buys with
  | nil =>
    intro pos hpos _
    obtain ⟨A, C⟩ := pos
    have hne : A ≠ 0 := ne_of_gt hpos
    simp only [List.foldl_nil, totalQty, totalCost, List.map_nil, List.sum_nil,
      add_zero, Option.some.injEq, Position.mk.injEq]
    refine ⟨by simp, ?_⟩
    rw [mul_comm A C, mul_div_assoc, div_self hne, mul_one]
  | cons b bs ih =>
    intro pos hpos hq
    obtain ⟨A, C⟩ := pos
    have hb : 0 < b.1 := hq b (List.mem_cons_self b bs)
    have hA : 0 < A := hpos
    have hsum : 0 < A + b.1 := by linarith
    have hne : A + b.1 ≠ 0 := ne_of_gt hsum
    simp only [List.foldl_cons]
    have hstep : applyBuy (some ⟨A, C⟩) b.1 b.2 =
        { amount := A + b.1, averagePrice := (A * C + b.1 * b.2) / (A + b.1) } := rfl
    rw [hstep, ih _ hsum (fun qp hqp => hq qp (List.mem_cons_of_mem b hqp))]
    simp only [totalQty, totalCost, List.map_cons, List.sum_cons, Option.some.injEq,
      Position.mk.injEq]
    have hnum : (A + b.1) * ((A * C + b.1 * b.2) / (A + b.1)) = A * C + b.1 * b.2 := by
      rw [mul_comm, div_mul_eq_mul_div, mul_div_assoc, div_self hne, mul_one]
    constructor
    · ring
    · rw [hnum]
      congr 1 <;> ring

/-- C3: applying a sequence of buy fills to an initially empty position leaves
the position with quantity `Σ qᵢ` and average cost
`Σ (qᵢ·pᵢ) / Σ qᵢ`, each step averaging as
`(oldQuantity·oldAverageCost + quantity·price) / (oldQuantity + quantity)`. -/
theorem C3_average_cost (buys : List (ℚ × ℚ)) (hq : ∀ qp ∈ buys, 0 < qp.1)
    (hne : buys ≠ []) :
    applyBuys buys =
      some { amount := totalQty buys
             averagePrice := totalCost buys / totalQty buys } := by
  match buys, hne with
  | b :: bs, _ =>
    have hb : 0 < b.1 := hq b (List.mem_cons_self b bs)
    unfold applyBuys
    simp only [List.foldl_cons]
    have hstep : applyBuy none b.1 b.2 = { amount := b.1, averagePrice := b.2 } := rfl
    rw [hstep, applyBuys_from bs ⟨b.1, b.2⟩ hb
      (fun qp hqp => hq qp (List.mem_cons_of_mem b hqp))]
    simp only [totalQty, totalCost, List.map_cons, List.sum_cons, Option.some.injEq,
      Position.mk.injEq]

theorem C3_average_cost_witness :
    applyBuys [((10 : ℚ), (10 : ℚ)), (5, 16)] =
      some { amount := totalQty [((10 : ℚ), (10 : ℚ)), (5, 16)]
             averagePrice := totalCost [((10 : ℚ), (10 : ℚ)), (5, 16)] /
               totalQty [((10 : ℚ), (10 : ℚ)), (5, 16)] } :=
  C3_average_cost _ (by intro qp hqp; fin_cases hqp <;> norm_num) (by simp)

/-! ## C2 — behaviour on insufficient data -/

/-- Ten identical candles — fewer than the 20 the entry point demands. -/
def shortCandles : List Candle := List.replicate 10 ⟨1, 1, 1, 1⟩

/-- C2 counterexample: the indicator entry point `calculateTokenIndicators`
**does** raise an insufficient-data error (on any series of fewer than 20
candles), contrary to the claim that it never does. -/
theorem C2_counterexample :
    calculateTokenIndicators anySqrt shortCandles =
      Except.error "Insufficient price data for technical analysis" := rfl

/-- C2 (amended): each individual indicator degrades to null when the series
is shorter than its minimum window (SMA/EMA/Bollinger need `period` values,
RSI/ATR need `period + 1`, MACD needs 26, Stochastic/Williams need `period`),
and the computation itself never throws — but the entry point
`calculateTokenIndicators` raises an insufficient-data error whenever fewer
than 20 candles are supplied, and only then. -/
theorem C2_insufficient_data (msqrt : ℚ → ℚ) (prices highs lows closes : List ℚ) :
    (∀ period, prices.length < period → calculateSMA prices period = none) ∧
    (∀ period, prices.length < period → calculateEMA prices period = none) ∧
    (prices.length < 26 → calculateMACD prices = none) ∧
    (∀ period, prices.length < period + 1 → calculateRSI prices period = none) ∧
    (∀ period, highs.length < period →
      calculateStochastic highs lows closes period = none) ∧
    (∀ period, highs.length < period →
      calculateWilliamsR highs lows closes period = none) ∧
    (∀ period sd, prices.length < period →
      calculateBollingerBands msqrt prices period sd = none) ∧
    (∀ period, highs.length < period + 1 →
      calculateATR highs lows closes period = none) ∧
    (∀ data : List Candle, data.length < 20 →
      calculateTokenIndicators msqrt data =
        Except.error "Insufficient price data for technical analysis") ∧
    (∀ data : List Candle, 20 ≤ data.length →
      calculateTokenIndicators msqrt data =
        Except.ok (calculateAllIndicators msqrt data)) := by
  refine ⟨fun period h => by simp [calculateSMA, h],
    fun period h => by simp [calculateEMA, h],
    fun h => ?_,
    fun period h => by simp [calculateRSI, h],
    fun period h => by simp [calculateStochastic, h],
    fun period h => by simp [calculateWilliamsR, h],
    fun period sd h => by simp [calculateBollingerBands, h],
    fun period h => by simp [calculateATR, h],
    fun data h => by simp [calculateTokenIndicators, h],
    fun data h => by simp [calculateTokenIndicators, Nat.not_lt.mpr h]⟩
  have h26 : calculateEMA prices 26 = none := by simp [calculateEMA, h]
  simp [calculateMACD, h26, truthy]

theorem C2_insufficient_data_witness :
    calculateSMA (List.replicate 10 (1 : ℚ)) 200 = none ∧
    calculateTokenIndicators anySqrt shortCandles =
      Except.error "Insufficient price data for technical analysis" :=
  ⟨(C2_insufficient_data anySqrt (List.replicate 10 (1 : ℚ)) [] [] []).1 200
      (by norm_num),
   (C2_insufficient_data anySqrt [] [] [] []).2.2.2.2.2.2.2.2.1 shortCandles
      (by norm_num [shortCandles])⟩

/-! ## C9 — flat windows in Stochastic / Williams %R -/

/-- Fourteen flat candles at price 5. -/
def flatQ : List ℚ := [5, 5, 5, 5, 5, 5, 5, 5, 5, 5, 5, 5, 5, 5]

/-- C9: on a flat window (highest high = lowest low) the unguarded divisions
produce the non-finite float NaN (modelled `none`) in `%K`, `%D` and
Williams `%R` — not a defined sentinel value. -/
theorem C9_flat_window :
    calculateStochastic flatQ flatQ flatQ 14 = some { k := none, d := none } ∧
    calculateWilliamsR flatQ flatQ flatQ 14 = some none := by
  have hlen14 : flatQ.length = 14 := rfl
  have hmax5 : maxList flatQ = 5 := by norm_num [flatQ, maxList]
  have hmin5 : minList flatQ = 5 := by norm_num [flatQ, minList]
  have hlast : lastD flatQ = 5 := rfl
  have hslice : sliceLast flatQ 14 = flatQ := by
    show flatQ.drop (flatQ.length - 14) = flatQ
    rw [hlen14]
    norm_num
  have htake : flatQ.take 14 = flatQ := by
    conv_lhs => rw [← hlen14]
    exact List.take_length flatQ
  constructor
  · norm_num [calculateStochastic, hlen14, hslice, htake, hmax5, hmin5, hlast,
      jsRatioScaled, sliceLastJS, jsSum, List.range']
  · norm_num [calculateWilliamsR, hlen14, hslice, hmax5, hmin5, hlast, jsRatioScaled]

/-! ## C8 — RSI bounds and extremes -/

/-- C8: with at least 15 prices, RSI(14) is defined and lies in `[0, 100]`;
a window with zero average loss (all gains) yields exactly 100; a window of
strictly falling prices yields exactly 0; and otherwise RSI is exactly
`100 − 100 / (1 + avgGain / avgLoss)` over the simple trailing averages. -/
theorem C8_rsi (prices : List ℚ) (h : 15 ≤ prices.length) :
    (∃ r, calculateRSI prices 14 = some r ∧ 0 ≤ r ∧ r ≤ 100) ∧
    (avgLossOf prices 14 = 0 → calculateRSI prices 14 = some 100) ∧
    ((∀ c ∈ sliceLast (diffs prices) 14, c < 0) → calculateRSI prices 14 = some 0) ∧
    (avgLossOf prices 14 ≠ 0 →
      calculateRSI prices 14 =
        some (100 - 100 / (1 + avgGainOf prices 14 / avgLossOf prices 14))) := by
  have hlen : ¬ prices.length < 14 + 1 := by omega
  have hgain : 0 ≤ avgGainOf prices 14 := by
    apply div_nonneg _ (by norm_num)
    apply List.sum_nonneg
    intro x hx
    have hx' : x ∈ gainsOf prices := List.drop_subset _ _ hx
    rcases List.mem_map.mp hx' with ⟨c, _, rfl⟩
    by_cases hc : c > 0 <;> simp [hc]
    exact le_of_lt hc
  have hloss : 0 ≤ avgLossOf prices 14 := by
    apply div_nonneg _ (by norm_num)
    apply List.sum_nonneg
    intro x hx
    have hx' : x ∈ lossesOf prices := List.drop_subset _ _ hx
    rcases List.mem_map.mp hx' with ⟨c, _, rfl⟩
    by_cases hc : c < 0 <;> simp [hc]
  have hdlen : (diffs prices).length = prices.length - 1 := by
    simp only [diffs, List.length_map, List.length_zip, List.length_drop]
    omega
  refine ⟨?_, fun hz => by simp [calculateRSI, hlen, hz], ?_, fun hz => by
    simp [calculateRSI, hlen, hz]⟩
  · by_cases hz : avgLossOf prices 14 = 0
    · exact ⟨100, by simp [calculateRSI, hlen, hz], by norm_num, by norm_num⟩
    · have hlpos : 0 < avgLossOf prices 14 := lt_of_le_of_ne hloss (Ne.symm hz)
      have hrs : 0 ≤ avgGainOf prices 14 / avgLossOf prices 14 := div_nonneg hgain hloss
      refine ⟨100 - 100 / (1 + avgGainOf prices 14 / avgLossOf prices 14),
        by simp [calculateRSI, hlen, hz], ?_, ?_⟩
      · have hle : 100 / (1 + avgGainOf prices 14 / avgLossOf prices 14) ≤ 100 :=
          div_le_self (by norm_num) (by linarith)
        linarith
      · have hnn : 0 ≤ 100 / (1 + avgGainOf prices 14 / avgLossOf prices 14) :=
          div_nonneg (by norm_num) (by linarith)
        linarith
  · intro hneg
    have hmapg : sliceLast (gainsOf prices) 14 =
        (sliceLast (diffs prices) 14).map (fun c => if c > 0 then c else 0) := by
      unfold sliceLast gainsOf
      rw [List.length_map, List.map_drop]
    have hmapl : sliceLast (lossesOf prices) 14 =
        (sliceLast (diffs prices) 14).map (fun c => if c < 0 then |c| else 0) := by
      unfold sliceLast lossesOf
      rw [List.length_map, List.map_drop]
    have hg0 : avgGainOf prices 14 = 0 := by
      unfold avgGainOf
      rw [hmapg, List.sum_eq_zero, zero_div]
      intro x hx
      rcases List.mem_map.mp hx with ⟨c, hc, rfl⟩
      simp [not_lt.mpr (le_of_lt (hneg c hc))]
    have hwlen : (sliceLast (diffs prices) 14).length = 14 := by
      unfold sliceLast
      rw [List.length_drop]
      omega
    have hlne : avgLossOf prices 14 ≠ 0 := by
      unfold avgLossOf
      rw [hmapl]
      apply ne_of_gt
      apply div_pos _ (by norm_num)
      apply List.sum_pos
      · intro x hx
        rcases List.mem_map.mp hx with ⟨c, hc, rfl⟩
        have hcneg := hneg c hc
        simp [hcneg]
        exact ne_of_lt hcneg
      · apply List.ne_nil_of_length_pos
        rw [List.length_map, hwlen]
        norm_num
    simp [calculateRSI, hlen, hlne, hg0]

theorem C8_rsi_witness :
    (∃ r, calculateRSI (List.replicate 16 (1 : ℚ)) 14 = some r ∧ 0 ≤ r ∧ r ≤ 100) ∧
    (avgLossOf (List.replicate 16 (1 : ℚ)) 14 = 0 →
      calculateRSI (List.replicate 16 (1 : ℚ)) 14 = some 100) ∧
    ((∀ c ∈ sliceLast (diffs (List.replicate 16 (1 : ℚ))) 14, c < 0) →
      calculateRSI (List.replicate 16 (1 : ℚ)) 14 = some 0) ∧
    (avgLossOf (List.replicate 16 (1 : ℚ)) 14 ≠ 0 →
      calculateRSI (List.replicate 16 (1 : ℚ)) 14 =
        some (100 - 100 / (1 + avgGainOf (List.replicate 16 (1 : ℚ)) 14 /
          avgLossOf (List.replicate 16 (1 : ℚ)) 14))) :=
  C8_rsi (List.replicate 16 (1 : ℚ)) (by norm_num)

/-! ## C4 — signal-vote aggregation -/

/-- A MACD result produced by `calculateMACD` always has
`histogram = macd − signal`. -/
theorem macd_histogram (prices : List ℚ) (m : MACDResult)
    (h : calculateMACD prices = some m) : m.histogram = m.macd - m.signal := by
  simp only [calculateMACD] at h
  split at h
  · have hm := Option.some.inj h
    subst hm
    rfl
  · exact absurd h (by simp)

/-- The code's RSI block casts the amended claim's votes. -/
theorem rsiVote_pair (r : Option ℚ) :
    ((rsiVote r).bull, (rsiVote r).bear) = specRsiVotesAmended r := by
  cases r with
  | none => rfl
  | some v =>
    simp only [rsiVote, specRsiVotesAmended]
    split_ifs <;> rfl

/-- The code's MACD block casts the claim's crossover votes (the redundant
histogram conjunct follows from `histogram = macd − signal`). -/
theorem macdVote_pair (prices : List ℚ) :
    ((macdVote (calculateMACD prices)).bull, (macdVote (calculateMACD prices)).bear) =
      specMacdVotes (calculateMACD prices) := by
  cases h : calculateMACD prices with
  | none => rfl
  | some m =>
    have hh := macd_histogram prices m h
    simp only [macdVote, specMacdVotes, hh]
    by_cases h1 : m.macd > m.signal
    · simp [h1, sub_pos.mpr h1]
    · by_cases h2 : m.macd < m.signal
      · simp [h1, h2, sub_neg.mpr h2]
      · simp [h1, h2]

/-- The code's moving-average block casts the amended claim's votes. -/
theorem maVote_pair (a b : Option ℚ) (p : ℚ) :
    ((maVote a b p).bull, (maVote a b p).bear) = specMaVotesAmended a b p := by
  cases a <;> cases b <;> simp only [maVote, specMaVotesAmended] <;>
    first
    | rfl
    | (split_ifs <;> rfl)

/-- The code's Bollinger block casts the claim's votes. -/
theorem bbVote_pair (v : Option BollingerBands) (p : ℚ) :
    ((bbVote v p).bull, (bbVote v p).bear) = specBbVotes v p := by
  cases v <;> simp only [bbVote, specBbVotes] <;>
    first
    | rfl
    | (split_ifs <;> rfl)

/-- C4 (amended): for every input series, the generated signal is exactly the
net-vote classification of the claim with the truthiness gates made explicit
(RSI extreme 2 — unless RSI is exactly 0 —, MACD crossover 1,
moving-average alignment 1 — unless an average is exactly 0 —,
Bollinger touch 1): `|net| ≤ 1` gives neutral/hold with strength 0,
`net > 1` bullish/buy with strength `min 100 (net·20)`, `net < −1`
bearish/sell with strength `min 100 (|net|·20)`. -/
theorem C4_signal_aggregation (msqrt : ℚ → ℚ) (prices highs lows volumes : List ℚ) :
    (generateTradingSignals msqrt prices highs lows volumes).overall =
      (specDirection (specNetAmended msqrt prices)).toOverall ∧
    (generateTradingSignals msqrt prices highs lows volumes).strength =
      specStrength (specNetAmended msqrt prices) := by
  have h1 := rsiVote_pair (calculateRSI prices 14)
  have h2 := macdVote_pair prices
  have h3 := maVote_pair (calculateSMA prices 20) (calculateSMA prices 50) (lastD prices)
  have h4 := bbVote_pair (calculateBollingerBands msqrt prices 20 2) (lastD prices)
  have h1a := congrArg Prod.fst h1
  have h1b := congrArg Prod.snd h1
  have h2a := congrArg Prod.fst h2
  have h2b := congrArg Prod.snd h2
  have h3a := congrArg Prod.fst h3
  have h3b := congrArg Prod.snd h3
  have h4a := congrArg Prod.fst h4
  have h4b := congrArg Prod.snd h4
  simp only at h1a h1b h2a h2b h3a h3b h4a h4b
  have hnet : specNetAmended msqrt prices =
      ((rsiVote (calculateRSI prices 14)).bull + (macdVote (calculateMACD prices)).bull +
        (maVote (calculateSMA prices 20) (calculateSMA prices 50) (lastD prices)).bull +
        (bbVote (calculateBollingerBands msqrt prices 20 2) (lastD prices)).bull) -
      ((rsiVote (calculateRSI prices 14)).bear + (macdVote (calculateMACD prices)).bear +
        (maVote (calculateSMA prices 20) (calculateSMA prices 50) (lastD prices)).bear +
        (bbVote (calculateBollingerBands msqrt prices 20 2) (lastD prices)).bear) := by
    simp only [specNetAmended]
    rw [← h1a, ← h1b, ← h2a, ← h2b, ← h3a, ← h3b, ← h4a, ← h4b]
  constructor
  · simp only [generateTradingSignals, ← hnet]
    unfold specDirection Direction.toOverall
    split_ifs <;> rfl
  · simp only [generateTradingSignals, ← hnet]
    unfold specStrength
    split_ifs <;> rfl

/-- Fifteen strictly falling prices: RSI(14) evaluates to exactly 0. -/
def fallingPrices : List ℚ := [15, 14, 13, 12, 11, 10, 9, 8, 7, 6, 5, 4, 3, 2, 1]

/-- C4 counterexample: on fifteen strictly falling prices RSI(14) is exactly
0 — an extreme oversold reading — yet the JS truthiness test `if (rsi)`
silently drops its weight-2 vote, so the code outputs neutral with strength
0 where the claim as stated (RSI extreme always contributes 2) dictates a
buy with strength 40. -/
theorem C4_counterexample :
    (generateTradingSignals anySqrt fallingPrices fallingPrices fallingPrices
      fallingPrices).overall = Overall.neutral ∧
    (generateTradingSignals anySqrt fallingPrices fallingPrices fallingPrices
      fallingPrices).strength = 0 ∧
    specDirection (specNet anySqrt fallingPrices) = Direction.buy ∧
    specStrength (specNet anySqrt fallingPrices) = 40 := by
  have hrsi : calculateRSI fallingPrices 14 = some 0 := by
    norm_num [calculateRSI, avgGainOf, avgLossOf, gainsOf, lossesOf, diffs,
      sliceLast, fallingPrices]
  have h26 : calculateEMA fallingPrices 26 = none := by
    norm_num [calculateEMA, fallingPrices]
  have hmacd : calculateMACD fallingPrices = none := by
    simp [calculateMACD, h26, truthy]
  have hbb : calculateBollingerBands anySqrt fallingPrices 20 2 = none := by
    norm_num [calculateBollingerBands, fallingPrices]
  have hsma20 : calculateSMA fallingPrices 20 = none := by
    norm_num [calculateSMA, fallingPrices]
  have hsma50 : calculateSMA fallingPrices 50 = none := by
    norm_num [calculateSMA, fallingPrices]
  have hcode : generateTradingSignals anySqrt fallingPrices fallingPrices fallingPrices
      fallingPrices = ⟨.neutral, 0, []⟩ := by
    norm_num [generateTradingSignals, hrsi, hmacd, hbb, hsma20, hsma50, rsiVote,
      macdVote, maVote, bbVote]
  have hspecnet : specNet anySqrt fallingPrices = 2 := by
    norm_num [specNet, hrsi, hmacd, hbb, hsma20, hsma50, specRsiVotes, specMacdVotes,
      specMaVotes, specBbVotes]
  refine ⟨by rw [hcode], by rw [hcode], ?_, ?_⟩
  · rw [hspecnet]
    norm_num [specDirection]
  · rw [hspecnet]
    norm_num [specStrength]
